import Mathlib

/-!
Shallow embedding of `easybuild/tools/filetools.py`: archive suffix
dispatch (`extractCmd`), base-directory resolution (`findBaseDir`),
patch level guessing and application (`patch`), the finishing logic of
the blocking runner (`run_cmd`), one iteration of the interactive
Q&A polling loop (`run_cmd_qa`), answer preparation (`processQA`),
and the output error scan (`parselogForError`).

Conventions of the embedding:
- `log.error` (from `easybuild.tools.build_log`, not part of the two
  source files) is modelled, following the specification's error
  taxonomy (§7), as raising: paths that call it are `Except.error`
  values.
- Compiled regular expressions appearing only as opaque matchers in the
  control flow (the Q&A tables, the error-scan pattern) are modelled as
  boolean predicates `String → Bool`; regexes whose concrete shape the
  control flow depends on (the `+++` line parser of `patch`) are
  translated explicitly.
- The filesystem and the child process are explicit oracles
  (`Sys`, `runner`), and the process-wide working directory is passed
  as explicit state.
- Python string operations are re-implemented structurally over
  `List Char` (Lean's builtin `String.splitOn` etc. are well-founded
  recursive and do not reduce in the kernel), mirroring Python
  semantics: `s.split(c)` on a single-character separator, `t % fn`
  with a single `%s` hole, `s.lower()`, `s.endswith(c)`, `s[-n:]`.
-/

namespace FileTools

/-- Python `s.split(sep)` for a single-character separator, on the
character list: accumulator-based structural recursion. -/
def splitCharAux (sep : Char) : List Char → List Char → List (List Char)
  | [], acc => [acc.reverse]
  | c :: cs, acc =>
    if c = sep then acc.reverse :: splitCharAux sep cs []
    else splitCharAux sep cs (c :: acc)

/-- Python `s.split(sep)` for a single-character separator. -/
def pySplit (sep : Char) (s : String) : List String :=
  (splitCharAux sep s.data []).map List.asString

/-- Python `sep.join(parts)` for a single-character separator. -/
def pyJoin (sep : Char) : List String → String
  | [] => ""
  | [s] => s
  | s :: rest => s ++ sep.toString ++ pyJoin sep rest

/-- Python `template % fn`: substitute the single `%s` hole
(first occurrence) in the template. -/
def percentSAux (fn : List Char) : List Char → List Char
  | [] => []
  | '%' :: 's' :: rest => fn ++ rest
  | c :: rest => c :: percentSAux fn rest

/-- Python `template % fn` on strings. -/
def substFn (template fn : String) : String :=
  (percentSAux fn.data template.data).asString

/-- Python `s.lower()`. -/
def pyLower (s : String) : String :=
  (s.data.map Char.toLower).asString

/-- Python `s.endswith(c)` for a single character. -/
def pyEndsWith (c : Char) (s : String) : Bool :=
  match s.data.getLast? with
  | some d => d = c
  | none => false

/-- Python `s[-n:]`: the trailing slice of at most `n` characters. -/
def pyTail (n : Nat) (s : String) : String :=
  (s.data.drop (s.data.length - n)).asString

/-- Errors raised by the engine; each corresponds to a `log.error` call,
which the specification's §7 taxonomy models as raising
(`easybuild.tools.build_log` is not among the source files). -/
inductive EngineError where
  | unknownFormat
  | indexError
  | missingPatchFile
  | missingFile
  | missingDestDir
  | patchLevelUndetermined
  | nonZeroExit (cmd : String) (out : String)
  | hangTimeout (cmd : String) (tail : String)
  deriving DecidableEq, Repr

deriving instance DecidableEq for Except

/-- Python `lst[-2]` on a list of strings: the second-to-last element,
an `IndexError` when the list has fewer than two elements. -/
def getPenult (l : List String) : Except EngineError String :=
  if h : 2 ≤ l.length then .ok (l.get ⟨l.length - 2, by omega⟩)
  else .error .indexError

/-- Lower-cased dot-separated tokens of a filename:
`[x.lower() for x in fn.split('.')]`. -/
def suffixTokens (fn : String) : List String :=
  (pySplit '.' fn).map pyLower

/-- Translation of `extractCmd(fn, overwrite=False)`: the sequential
if-chain over the lower-cased dot-separated tokens, with `ftype`
threaded as the mutable variable of the source; `ff[-2]` accesses are
fallible as in Python; if no rule fires, `log.error` reports an
unknown file type. -/
def extractCmd (fn : String) (overwrite : Bool) : Except EngineError String :=
  let ff := suffixTokens fn
  let lastTok := ff.getLastD ""
  -- gzipped or gzipped tarball
  let step1 : Except EngineError (Option String) :=
    if lastTok = "gz" then
      match getPenult ff with
      | .error e => .error e
      | .ok p => .ok (some (if p = "tar" then "tar xzf %s" else "gunzip %s"))
    else .ok none
  match step1 with
  | .error e => .error e
  | .ok ftype =>
    let ftype := if lastTok = "tgz" ∨ lastTok = "gtgz" then some "tar xzf %s" else ftype
    -- bzipped or bzipped tarball
    let step2 : Except EngineError (Option String) :=
      if lastTok = "bz2" then
        match getPenult ff with
        | .error e => .error e
        | .ok p => .ok (some (if p = "tar" then "tar xjf %s" else "bunzip2 %s"))
      else .ok ftype
    match step2 with
    | .error e => .error e
    | .ok ftype =>
      let ftype := if lastTok = "tbz" then some "tar xfj %s" else ftype
      -- tarball
      let ftype := if lastTok = "tar" then some "tar xf %s" else ftype
      -- zip file
      let ftype :=
        if lastTok = "zip" then
          some (if overwrite then "unzip -qq -o %s" else "unzip -qq %s")
        else ftype
      match ftype with
      | none => .error .unknownFormat
      | some t => .ok (substFn t fn)

/-- The last tokens for which some dispatch rule of `extractCmd` fires. -/
def knownSuffixes : List String :=
  ["gz", "tgz", "gtgz", "bz2", "tbz", "tar", "zip"]

/-- A compiled regular expression used only as an opaque matcher:
`p.search(s)` is modelled as a boolean predicate on the string. -/
abbrev Pattern := String → Bool

/-- Translation of `parselogForError(txt, ...)`: split the captured text
on newlines, collect every line on which the pattern finds a match, and
bump the global `errorsFoundInLog` counter once per collected line.
Returns the collected lines and the updated counter. -/
def parselogForError (matcher : Pattern) (txt : String) (errorsFoundInLog : Nat) :
    List String × Nat :=
  let res := (pySplit '\n' txt).filter matcher
  (res, errorsFoundInLog + res.length)

/-- Result of a completed `run_cmd` / `run_cmd_qa` call: the simple
boolean flag, or the `(stdouterr, ec)` pair. -/
inductive RunResult where
  | flag (b : Bool)
  | pair (out : String) (ec : Int)
  deriving DecidableEq, Repr

/-- Translation of the tail of `run_cmd` (after the final read): the
`log.error` on a non-zero exit code when `log_all or log_ok` (modelled
as raising `NonZeroExit`), then the `parselogForError` scan when
`regexp` is set, then the `simple`-dependent return value. The global
`errorsFoundInLog` counter is threaded explicitly. -/
def run_cmd_finish (matcher : Pattern) (cmd stdouterr : String) (ec : Int)
    (log_ok log_all simple regexp : Bool) (errorsFoundInLog : Nat) :
    Except EngineError (RunResult × Nat) :=
  if ec ≠ 0 ∧ (log_all ∨ log_ok) then
    .error (.nonZeroExit cmd stdouterr)
  else
    let counter :=
      if regexp then (parselogForError matcher stdouterr errorsFoundInLog).2
      else errorsFoundInLog
    if simple then
      if ec ≠ 0 then .ok (.flag false, counter) else .ok (.flag true, counter)
    else
      .ok (.pair stdouterr ec, counter)

/-- Translation of the tail of `run_cmd_qa` (after the final read): it
is textually the same logic as the tail of `run_cmd`. -/
def run_cmd_qa_finish (matcher : Pattern) (cmd stdoutErr : String) (ec : Int)
    (log_ok log_all simple regexp : Bool) (errorsFoundInLog : Nat) :
    Except EngineError (RunResult × Nat) :=
  if ec ≠ 0 ∧ (log_all ∨ log_ok) then
    .error (.nonZeroExit cmd stdoutErr)
  else
    let counter :=
      if regexp then (parselogForError matcher stdoutErr errorsFoundInLog).2
      else errorsFoundInLog
    if simple then
      if ec ≠ 0 then .ok (.flag false, counter) else .ok (.flag true, counter)
    else
      .ok (.pair stdoutErr ec, counter)

/-- The answer-normalisation step of `processQA(q, a)` in `run_cmd_qa`:
`if not a.endswith('\n'): a += '\n'`. The accompanying construction of
the question regex is kept opaque (patterns are `Pattern` values). -/
def processQA_answer (a : String) : String :=
  if pyEndsWith '\n' a then a else a ++ "\n"

/-- The identical answer-normalisation applied to `std_qa` entries:
`if not answer.endswith('\n'): answer += '\n'`. -/
def stdQA_answer (answer : String) : String :=
  if pyEndsWith '\n' answer then answer else answer ++ "\n"

/-- Number of trailing newline characters of a string (to state
"ends in exactly one trailing newline"). -/
def trailingNewlines (s : String) : Nat :=
  (s.data.reverse.takeWhile (fun c => c = '\n')).length

/-- Mutable loop state of `run_cmd_qa`'s polling loop: the cumulative
buffer `stdoutErr` (initially `''`), `oldLenOut` (initially `-1`) and
`hitCount` (initially `0`). -/
structure QAState where
  stdoutErr : String
  oldLenOut : Int
  hitCount : Nat
  deriving DecidableEq, Repr

/-- Initial loop state of `run_cmd_qa`. -/
def initQAState : QAState :=
  { stdoutErr := "", oldLenOut := -1, hitCount := 0 }

/-- The kill system calls issued when the hang threshold is exceeded:
`os.killpg(p.pid, SIGKILL)` then `os.kill(p.pid, SIGKILL)` (both inside
one `try` whose `OSError`s are logged and swallowed). -/
inductive KillAction where
  | killProcessGroup
  | killProcess
  deriving DecidableEq, Repr

/-- Observable outcome of one iteration of `run_cmd_qa`'s polling loop:
the updated state, the answer sent via `send_all` (if any), the kill
actions issued, and the `HangTimeout` payload (`stdoutErr[-500:]`
embedded in the `log.error` message) when the threshold was exceeded. -/
structure QAStepOut where
  state : QAState
  sent : Option String
  kills : List KillAction
  hangTimeout : Option String
  deriving DecidableEq, Repr

/-- `maxHitCount = 20` in `run_cmd_qa`. -/
def maxHitCount : Nat := 20

/-- The scan `for q, a in tbl: if tmpOut and q.search(stdoutErr): ...`:
first entry whose pattern matches the buffer, guarded by the truthiness
of this iteration's read. -/
def findHit (tmpTruthy : Bool) (tbl : List (Pattern × String)) (buf : String) :
    Option String :=
  match tbl with
  | [] => none
  | (q, a) :: rest =>
    if tmpTruthy && q buf then some a else findHit tmpTruthy rest buf

/-- One iteration of the `while ec < 0` polling loop of `run_cmd_qa`,
given the outcome of this iteration's `recv_some` (`none` models an
`IOError`, i.e. `tmpOut = None`): append new output, scan the custom
table then the standard table (guarded by `tmpOut`'s truthiness,
sending at most one answer and resetting `hitCount` on a hit), else
record buffer growth, else consult the no-progress sentinels, else
increment `hitCount`; finally issue the kill sequence and the
`HangTimeout` error payload when `hitCount > maxHitCount`. -/
def run_cmd_qa_step (newQA newstdQA : List (Pattern × String))
    (new_no_qa : List Pattern) (tmpOut : Option String) (st : QAState) :
    QAStepOut :=
  let stdoutErr := st.stdoutErr ++ tmpOut.getD ""
  let tmpTruthy : Bool :=
    match tmpOut with
    | none => false
    | some s => !(s = "")
  let res : Option String × QAState :=
    match findHit tmpTruthy newQA stdoutErr with
    | some a =>
      (some a, { stdoutErr := stdoutErr, oldLenOut := st.oldLenOut, hitCount := 0 })
    | none =>
      match findHit tmpTruthy newstdQA stdoutErr with
      | some a =>
        (some a, { stdoutErr := stdoutErr, oldLenOut := st.oldLenOut, hitCount := 0 })
      | none =>
        if (stdoutErr.length : Int) > st.oldLenOut then
          (none, { stdoutErr := stdoutErr, oldLenOut := (stdoutErr.length : Int),
                   hitCount := st.hitCount })
        else if new_no_qa.any (fun r => r stdoutErr) then
          (none, { stdoutErr := stdoutErr, oldLenOut := st.oldLenOut,
                   hitCount := st.hitCount })
        else
          (none, { stdoutErr := stdoutErr, oldLenOut := st.oldLenOut,
                   hitCount := st.hitCount + 1 })
  if res.2.hitCount > maxHitCount then
    { state := res.2, sent := res.1,
      kills := [.killProcessGroup, .killProcess],
      hangTimeout := some (pyTail 500 res.2.stdoutErr) }
  else
    { state := res.2, sent := res.1, kills := [], hangTimeout := none }

/-- Iterated polling: fold `run_cmd_qa_step` over a list of per-poll
read outcomes, stopping (as the raised `HangTimeout` does) at the first
iteration whose threshold check fires. Returns the final state and
whether a `HangTimeout` was raised. -/
def run_cmd_qa_poll (newQA newstdQA : List (Pattern × String))
    (new_no_qa : List Pattern) : List (Option String) → QAState → QAState × Bool
  | [], st => (st, false)
  | tmpOut :: rest, st =>
    let out := run_cmd_qa_step newQA newstdQA new_no_qa tmpOut st
    if out.hangTimeout.isSome then (out.state, true)
    else run_cmd_qa_poll newQA newstdQA new_no_qa rest out.state

/-- The filesystem oracle: `os.path.isfile`, `os.path.isdir` and
`os.listdir` over absolute paths. -/
structure Sys where
  isfile : String → Bool
  isdir : String → Bool
  listdir : String → List String

/-- `os.path.join(cwd, p)` (also resolving a relative path against the
working directory as `os.path.abspath` does): `p` itself when absolute,
else `cwd + '/' + p`. Path normalisation (`..`, duplicate slashes) is
not modelled. -/
def pathJoin (cwd p : String) : String :=
  if p.data.head? = some '/' then p else cwd ++ "/" ++ p

/-- `os.path.abspath(p)` relative to the explicit working directory. -/
def abspath (cwd p : String) : String :=
  pathJoin cwd p

/-- The fixed ignore list of `findBaseDir.getLocalDirsPurged`. -/
def ignoreDirs : List String := ["easybuildlog"]

/-- `getLocalDirsPurged()`: list the working directory and remove the
first occurrence of each ignored name (`lst.remove(ignDir)` guarded by
membership). -/
def getLocalDirsPurged (sys : Sys) (cwd : String) : List String :=
  ignoreDirs.foldl (fun lst ignDir => lst.erase ignDir) (sys.listdir cwd)

/-- The `while len(lst) == 1` loop of `findBaseDir`, with the working
directory and the `newDir` variable threaded explicitly and a fuel
bound for termination (the source recurses down the directory tree).
Returns `(newDir, final working directory)`. -/
def findBaseDirLoop (sys : Sys) : Nat → String → List String → String → String × String
  | 0, cwd, _, newDir => (newDir, cwd)
  | fuel + 1, cwd, lst, newDir =>
    match lst with
    | [entry] =>
      let nd := pathJoin cwd entry
      if sys.isdir nd then
        findBaseDirLoop sys fuel nd (getLocalDirsPurged sys nd) nd
      else (nd, cwd)
    | _ => (newDir, cwd)

/-- Translation of `findBaseDir()`, started from the given working
directory. Returns `(returned path, final working directory)`. -/
def findBaseDir (sys : Sys) (fuel : Nat) (cwd : String) : String × String :=
  findBaseDirLoop sys fuel cwd (getLocalDirsPurged sys cwd) cwd

/-- Python whitespace class `\s` (as matched by `re`). -/
def isPySpace (c : Char) : Bool :=
  c == ' ' || c == '\t' || c == '\n' || c == '\r' || c == '\x0b' || c == '\x0c'

/-- `patchreg.search(line)` for
`patchreg = re.compile(r"^\s*\+\+\+\s+(?P<file>\S+)")`: leading
whitespace, three plus signs, at least one whitespace character, then
the captured maximal nonempty run of non-whitespace. `^` without
`re.MULTILINE` anchors the search at the start of the line. -/
def patchregSearch (line : String) : Option String :=
  match line.data.dropWhile isPySpace with
  | '+' :: '+' :: '+' :: rest =>
    match rest with
    | [] => none
    | c :: _ =>
      if isPySpace c then
        let captured := (rest.dropWhile isPySpace).takeWhile (fun d => !isPySpace d)
        if captured = [] then none else some captured.asString
      else none
  | _ => none

/-- The `readline` loop of `patch`: every `+++` path captured by
`patchreg`, in file order. -/
def patchPlusLines (lines : List String) : List String :=
  lines.filterMap patchregSearch

/-- The inner `for i in range(n)` loop of `patch`'s level guessing: for
a single `+++` path, the first strip depth `i` (number of leading
`/`-separated segments dropped) at which the remainder is an existing
file. -/
def guessLevelForFile (isfile : String → Bool) (f : String) : Option Nat :=
  let tf2 := pySplit '/' f
  (List.range tf2.length).find? (fun i => isfile (pyJoin '/' (tf2.drop i)))

/-- The outer `for line in plusLines` loop of `patch`'s level guessing:
the first `+++` path that resolves at some strip depth fixes the level
and stops the search. -/
def guessPatchLevel (isfile : String → Bool) : List String → Option Nat
  | [] => none
  | f :: rest =>
    match guessLevelForFile isfile f with
    | some i => some i
    | none => guessPatchLevel isfile rest

/-- Python truthiness of the optional `level` argument of `patch`:
`if not level` guesses both when `level` is `None` and when it is `0`. -/
def levelTruthy : Option Nat → Bool
  | none => false
  | some n => !(n = 0)

/-- Successful outcomes of `patch`: `'ok'` from the copy branch, or the
`True` of `run_cmd(..., simple=True)`. -/
inductive PatchOutcome where
  | okCopy
  | simpleTrue
  deriving DecidableEq, Repr

/-- Observable outcome of a `patch` call: its result, the final
process-wide working directory, and the shell commands it ran. -/
structure PatchRun where
  result : Except EngineError PatchOutcome
  cwd : String
  cmds : List String
  deriving DecidableEq, Repr

/-- Translation of `patch(patchFile, dest, fn=None, copy=False,
level=None)`. The patch file's text is given as its list of lines; the
child `patch` tool is the `runner` oracle mapping a command line to
`(output, exit code)`. Existence preconditions, the copy branch, the
`os.chdir(adest)`, the level guess from the `+++` lines (relative
existence tested against the new working directory `adest`), and the
final `run_cmd(patchCmd, simple=True)` — whose default `log_ok=True`
raises `NonZeroExit` on failure inside `run_cmd`, making the source's
`if not result` branch unreachable — are modelled in order. -/
def patch (sys : Sys) (runner : String → String × Int) (patchLines : List String)
    (cwd : String) (patchFile dest : String) (fn : Option String) (copy : Bool)
    (level : Option Nat) : PatchRun :=
  if !sys.isfile (abspath cwd patchFile) then
    { result := .error .missingPatchFile, cwd := cwd, cmds := [] }
  else if (match fn with
           | some f => !sys.isfile (abspath cwd f)
           | none => false) then
    { result := .error .missingFile, cwd := cwd, cmds := [] }
  else if !sys.isdir (abspath cwd dest) then
    { result := .error .missingDestDir, cwd := cwd, cmds := [] }
  else if copy then
    -- shutil.copy2(patchFile, dest); return 'ok' (the file write itself
    -- is not observable through Sys)
    { result := .ok .okCopy, cwd := cwd, cmds := [] }
  else
    let apatch := abspath cwd patchFile
    let adest := abspath cwd dest
    -- os.chdir(adest)
    let cwd := adest
    let pGuess : Except EngineError Nat :=
      if !levelTruthy level then
        let plusLines := patchPlusLines patchLines
        if plusLines = [] then .error .patchLevelUndetermined
        else
          match guessPatchLevel (fun rel => sys.isfile (abspath cwd rel)) plusLines with
          | none => .error .patchLevelUndetermined
          | some p => .ok p
      else .ok (level.getD 0)
    match pGuess with
    | .error e => { result := .error e, cwd := cwd, cmds := [] }
    | .ok p =>
      let patchCmd := "patch -b -p" ++ toString p ++ " -i " ++ apatch
      let ro := runner patchCmd
      if ro.2 ≠ 0 then
        { result := .error (.nonZeroExit patchCmd ro.1), cwd := cwd, cmds := [patchCmd] }
      else
        { result := .ok .simpleTrue, cwd := cwd, cmds := [patchCmd] }

/-- `os.makedirs(d)` restricted to what `unpack` observes afterwards:
`d` becomes an (empty) directory. Listings of the surrounding tree are
not updated. -/
def Sys.mkdir (sys : Sys) (d : String) : Sys :=
  { isfile := sys.isfile,
    isdir := fun p => p == d || sys.isdir p,
    listdir := fun p => if p == d then [] else sys.listdir p }

/-- Observable outcome of an `unpack` call: the returned base
directory (or error), the final process-wide working directory, and
the shell commands it ran. -/
structure UnpackRun where
  result : Except EngineError String
  cwd : String
  cmds : List String
  deriving DecidableEq, Repr

/-- Translation of `unpack(fn, dest, extraOptions=None,
overwrite=False)`: existence check of `fn`, `os.makedirs(dest)` when
missing, `os.chdir(absDest)`, the `extractCmd` dispatch (which raises
on an unknown suffix, making the source's `if not cmd` branch
unreachable), the optional extra options, `run_cmd(cmd, simple=True)`
(default `log_ok=True` raises `NonZeroExit` on failure), then
`findBaseDir()`. -/
def unpack (sys : Sys) (runner : String → String × Int) (fuel : Nat)
    (cwd : String) (fn dest : String) (extraOptions : Option String)
    (overwrite : Bool) : UnpackRun :=
  if !sys.isfile (abspath cwd fn) then
    { result := .error .missingFile, cwd := cwd, cmds := [] }
  else
    let sys := if sys.isdir (abspath cwd dest) then sys
               else sys.mkdir (abspath cwd dest)
    let absDest := abspath cwd dest
    -- os.chdir(absDest)
    let cwd := absDest
    match extractCmd fn overwrite with
    | .error e => { result := .error e, cwd := cwd, cmds := [] }
    | .ok cmd0 =>
      let cmd :=
        match extraOptions with
        | some opts => cmd0 ++ " " ++ opts
        | none => cmd0
      let ro := runner cmd
      if ro.2 ≠ 0 then
        { result := .error (.nonZeroExit cmd ro.1), cwd := cwd, cmds := [cmd] }
      else
        let fb := findBaseDir sys fuel cwd
        { result := .ok fb.1, cwd := fb.2, cmds := [cmd] }

/-- Written from the specification's words (§4.5 steps 2-3), for
comparison with the translated loop: the answer selected for a poll is
the first custom-table entry whose pattern matches the whole buffer,
else the first standard-table entry whose pattern matches, else none. -/
def specAnswerSelection (custom std : List (Pattern × String)) (buf : String) :
    Option String :=
  match ((custom.filter (fun qa => qa.1 buf)).head?).map Prod.snd with
  | some a => some a
  | none => ((std.filter (fun qa => qa.1 buf)).head?).map Prod.snd

/-- Example filesystem: `/a` contains only the directory chain
`/a/b/c`, and `c` is empty. -/
def exampleChainSys : Sys :=
  { isfile := fun _ => false,
    isdir := fun p => p == "/a" || p == "/a/b" || p == "/a/b/c",
    listdir := fun p =>
      if p == "/a" then ["b"] else if p == "/a/b" then ["c"] else [] }

/-- Example filesystem: the directory `/r` contains a single entry `f`
which is a regular file, not a directory. -/
def exampleSoleFileSys : Sys :=
  { isfile := fun p => p == "/r/f",
    isdir := fun p => p == "/r",
    listdir := fun p => if p == "/r" then ["f"] else [] }

/-- Example filesystem for patch level inference: the target directory
`/t` contains `b/file.txt`, and `/pf` is the patch file. -/
def examplePatchSys : Sys :=
  { isfile := fun p => p == "/t/b/file.txt" || p == "/pf",
    isdir := fun p => p == "/t",
    listdir := fun _ => [] }

end FileTools

namespace FileTools

/- Helper lemmas. -/

theorem str_data_append (a b : String) : (a ++ b).data = a.data ++ b.data := by
  cases a; cases b; rfl

theorem str_append_empty (s : String) : s ++ "" = s := by
  cases s with
  | mk data => show String.mk (data ++ []) = String.mk data; rw [List.append_nil]

theorem findHit_false (tbl : List (Pattern × String)) (buf : String) :
    findHit false tbl buf = none := by
  induction tbl with
  | nil => rfl
  | cons qa rest ih => simp [findHit, ih]

theorem findHit_true_filter (tbl : List (Pattern × String)) (buf : String) :
    findHit true tbl buf = ((tbl.filter (fun qa => qa.1 buf)).head?).map Prod.snd := by
  induction tbl with
  | nil => rfl
  | cons qa rest ih =>
    by_cases h : qa.1 buf = true
    · cases qa; simp_all [findHit, List.filter]
    · cases qa; simp_all [findHit, List.filter]

theorem qa_step_cases (newQA newstdQA : List (Pattern × String)) (noqa : List Pattern)
    (tmpOut : Option String) (st : QAState) :
    (run_cmd_qa_step newQA newstdQA noqa tmpOut st).state.stdoutErr
        = st.stdoutErr ++ tmpOut.getD "" ∧
    (run_cmd_qa_step newQA newstdQA noqa tmpOut st).sent
        = (match findHit (match tmpOut with | none => false | some s => !(s = ""))
                 newQA (st.stdoutErr ++ tmpOut.getD "") with
           | some a => some a
           | none => findHit (match tmpOut with | none => false | some s => !(s = ""))
                 newstdQA (st.stdoutErr ++ tmpOut.getD "")) ∧
    (run_cmd_qa_step newQA newstdQA noqa tmpOut st).state.hitCount
        = (if ((findHit (match tmpOut with | none => false | some s => !(s = ""))
                 newQA (st.stdoutErr ++ tmpOut.getD "")).isSome
              ∨ (findHit (match tmpOut with | none => false | some s => !(s = ""))
                 newstdQA (st.stdoutErr ++ tmpOut.getD "")).isSome) then 0
           else if ((st.stdoutErr ++ tmpOut.getD "").length : Int) > st.oldLenOut then st.hitCount
           else if noqa.any (fun r => r (st.stdoutErr ++ tmpOut.getD "")) then st.hitCount
           else st.hitCount + 1) ∧
    (run_cmd_qa_step newQA newstdQA noqa tmpOut st).state.oldLenOut
        = (if ((findHit (match tmpOut with | none => false | some s => !(s = ""))
                 newQA (st.stdoutErr ++ tmpOut.getD "")).isSome
              ∨ (findHit (match tmpOut with | none => false | some s => !(s = ""))
                 newstdQA (st.stdoutErr ++ tmpOut.getD "")).isSome) then st.oldLenOut
           else if ((st.stdoutErr ++ tmpOut.getD "").length : Int) > st.oldLenOut
           then ((st.stdoutErr ++ tmpOut.getD "").length : Int)
           else st.oldLenOut) ∧
    (run_cmd_qa_step newQA newstdQA noqa tmpOut st).hangTimeout
        = (if (run_cmd_qa_step newQA newstdQA noqa tmpOut st).state.hitCount > maxHitCount
           then some (pyTail 500 (st.stdoutErr ++ tmpOut.getD "")) else none) ∧
    (run_cmd_qa_step newQA newstdQA noqa tmpOut st).kills
        = (if (run_cmd_qa_step newQA newstdQA noqa tmpOut st).state.hitCount > maxHitCount
           then [KillAction.killProcessGroup, KillAction.killProcess] else []) := by
  unfold run_cmd_qa_step
  generalize (match tmpOut with | none => false | some s => !(s = "")) = tt
  generalize hb : st.stdoutErr ++ tmpOut.getD "" = buf
  rcases h1 : findHit tt newQA buf with _ | a
  · rcases h2 : findHit tt newstdQA buf with _ | a
    · by_cases hg : ((buf.length : Int)) > st.oldLenOut
      · by_cases hh : maxHitCount < st.hitCount <;> simp [h1, h2, hg, hh]
      · by_cases hn : noqa.any (fun r => r buf) = true
        · by_cases hh : maxHitCount < st.hitCount <;> simp [h1, h2, hg, hn, hh]
        · by_cases hh : maxHitCount < st.hitCount + 1 <;> simp [h1, h2, hg, hn, hh]
    · simp [h1, h2, maxHitCount]
  · simp [h1, maxHitCount]

/-- C6: `extractCmd` is a pure, deterministic function of
`(filename, overwrite)` returning the suffix table's command template
with `%s` replaced by the filename — `"foo.tar.gz"` yields
`"tar xzf foo.tar.gz"`, `"foo.zip"` with `overwrite` yields
`"unzip -qq -o foo.zip"` — and every filename whose lower-cased last
dot-separated token matches no rule fails with `UnknownFormat` rather
than returning a command. -/
theorem extractCmd_suffix_dispatch :
    extractCmd "foo.tar.gz" false = .ok "tar xzf foo.tar.gz" ∧
    extractCmd "foo.zip" true = .ok "unzip -qq -o foo.zip" ∧
    (∀ ow, extractCmd "foo.xyz" ow = .error .unknownFormat) ∧
    (∀ fn ow, ¬ (suffixTokens fn).getLastD "" ∈ knownSuffixes →
       extractCmd fn ow = .error .unknownFormat) := by
  refine ⟨by decide, by decide, fun ow => by cases ow <;> decide, fun fn ow h => ?_⟩
  simp only [knownSuffixes, List.mem_cons, List.not_mem_nil, or_false, not_or] at h
  obtain ⟨h1, h2, h3, h4, h5, h6, h7⟩ := h
  unfold extractCmd
  simp only [h1, h2, h3, h4, h5, h6, h7, if_false, ite_false, or_self, if_neg,
    not_false_iff]

/-- Witness for C6: the unknown-suffix clause applied at the concrete
filename `a.out`. -/
theorem extractCmd_suffix_dispatch_witness :
    extractCmd "a.out" true = .error .unknownFormat :=
  extractCmd_suffix_dispatch.2.2.2 "a.out" true (by decide)

/-- C7: for every completed run, `run_cmd` and `run_cmd_qa` in simple
mode return the boolean `true` if and only if the exit code is zero,
and with simple mode off they return the pair
(captured combined output, exit code). -/
theorem run_result_shape (matcher : Pattern) (cmd out : String) (ec : Int)
    (lo la re : Bool) (c : Nat) :
    (∀ x cnt, run_cmd_finish matcher cmd out ec lo la true re c = .ok (x, cnt) →
       (x = .flag true ↔ ec = 0)) ∧
    (∀ x cnt, run_cmd_finish matcher cmd out ec lo la false re c = .ok (x, cnt) →
       x = .pair out ec) ∧
    (∀ x cnt, run_cmd_qa_finish matcher cmd out ec lo la true re c = .ok (x, cnt) →
       (x = .flag true ↔ ec = 0)) ∧
    (∀ x cnt, run_cmd_qa_finish matcher cmd out ec lo la false re c = .ok (x, cnt) →
       x = .pair out ec) := by
  refine ⟨?_, ?_, ?_, ?_⟩ <;> intro x cnt h <;> cases la <;> cases lo <;>
    by_cases hec : ec = 0 <;>
    simp_all [run_cmd_finish, run_cmd_qa_finish] <;> simp [← h.1]

/-- Witness for C7: the simple-mode clause applied at a concrete
successful run with exit code zero. -/
theorem run_result_shape_witness :
    RunResult.flag true = RunResult.flag true ↔ (0 : Int) = 0 :=
  (run_result_shape (fun _ => false) "true" "" 0 true false true 0).1
    (.flag true) 0 (by decide)

/-- C8 counterexample: the claim says every answer sent ends in exactly
one trailing newline; an answer supplied with two trailing newlines is
passed through `processQA` unchanged and still ends in two. -/
theorem answer_newline_cex :
    processQA_answer "y\n\n" = "y\n\n" ∧
    trailingNewlines (processQA_answer "y\n\n") = 2 := by
  constructor <;> decide

/-- C8 (amended): `processQA` and the `std_qa` preparation append a
newline only when the caller's answer does not already end in one, so
every answer sent ends in at least one trailing newline; answers
already ending in one or more newlines are sent unchanged. -/
theorem answer_newline_normalisation (a : String) :
    (pyEndsWith '\n' a = false → processQA_answer a = a ++ "\n") ∧
    (pyEndsWith '\n' a = true → processQA_answer a = a) ∧
    1 ≤ trailingNewlines (processQA_answer a) ∧
    stdQA_answer a = processQA_answer a := by
  refine ⟨fun h => by simp [processQA_answer, h], fun h => by simp [processQA_answer, h],
    ?_, by simp [stdQA_answer, processQA_answer]⟩
  unfold processQA_answer
  by_cases h : pyEndsWith '\n' a = true
  · simp only [h, if_true, if_pos]
    unfold pyEndsWith at h
    have hl : a.data.getLast? = some '\n' := by
      rcases hg : a.data.getLast? with _ | d
      · rw [hg] at h; exact absurd h (by simp)
      · rw [hg] at h; simp at h; rw [h]
    unfold trailingNewlines
    rw [← List.head?_reverse] at hl
    rcases hr : a.data.reverse with _ | ⟨c, t⟩
    · rw [hr] at hl; exact absurd hl (by simp)
    · rw [hr] at hl
      simp at hl
      rw [hl]
      simp [List.takeWhile]
  · simp only [h, if_false, Bool.not_eq_true] at *
    simp only [h, if_neg, Bool.false_eq_true, not_false_iff]
    unfold trailingNewlines
    rw [str_data_append]
    have hnl : ("\n" : String).data = ['\n'] := rfl
    rw [hnl, List.reverse_append]
    simp [List.takeWhile]

/-- Witness for C8: a newline is appended to the answer `y`. -/
theorem answer_newline_normalisation_witness :
    processQA_answer "y" = "y" ++ "\n" :=
  (answer_newline_normalisation "y").1 (by decide)

/-- C9: `parselogForError` splits the captured text into lines,
collects every line matching the failure pattern and increments the
shared diagnostic counter once per collected line; and the value
returned by `run_cmd` / `run_cmd_qa` (success flag or output/exit-code
pair) is independent of the scan's pattern and of the counter. -/
theorem error_scan_advisory (m m2 : Pattern) (txt cmd out : String) (ec : Int)
    (lo la si re : Bool) (c c2 c3 : Nat) :
    (parselogForError m txt c).1 = (pySplit '\n' txt).filter m ∧
    (parselogForError m txt c).2 = c + ((parselogForError m txt c).1).length ∧
    (run_cmd_finish m cmd out ec lo la si re c2).map (fun p => p.1) =
      (run_cmd_finish m2 cmd out ec lo la si re c3).map (fun p => p.1) ∧
    (run_cmd_qa_finish m cmd out ec lo la si re c2).map (fun p => p.1) =
      (run_cmd_qa_finish m2 cmd out ec lo la si re c3).map (fun p => p.1) := by
  refine ⟨rfl, rfl, ?_, ?_⟩ <;>
    cases si <;> cases la <;> cases lo <;> by_cases hec : ec = 0 <;>
      simp [run_cmd_finish, run_cmd_qa_finish, hec, Except.map]

theorem qa_quiet_step (newQA newstdQA : List (Pattern × String)) (noqa : List Pattern)
    (st : QAState) (hlen : (st.stdoutErr.length : Int) ≤ st.oldLenOut)
    (hnq : noqa.any (fun r => r st.stdoutErr) = false) :
    (run_cmd_qa_step newQA newstdQA noqa none st).state.stdoutErr = st.stdoutErr ∧
    (run_cmd_qa_step newQA newstdQA noqa none st).state.oldLenOut = st.oldLenOut ∧
    (run_cmd_qa_step newQA newstdQA noqa none st).state.hitCount = st.hitCount + 1 ∧
    ((run_cmd_qa_step newQA newstdQA noqa none st).hangTimeout.isSome =
      decide (st.hitCount + 1 > maxHitCount)) := by
  obtain ⟨hbuf, hsent, hcount, hold, hhang, -⟩ := qa_step_cases newQA newstdQA noqa none st
  simp only [Option.getD_none, str_append_empty, findHit_false, Option.isSome_none,
    or_self, if_false, Bool.false_eq_true] at hbuf hsent hcount hold hhang
  have hg : ¬ ((st.stdoutErr.length : Int) > st.oldLenOut) := not_lt.mpr hlen
  rw [if_neg hg] at hcount hold
  rw [if_neg (by simp [hnq])] at hcount
  refine ⟨hbuf, hold, hcount, ?_⟩
  rw [hhang, hcount]
  by_cases hh : st.hitCount + 1 > maxHitCount <;> simp [hh]

theorem qa_quiet_poll (newQA newstdQA : List (Pattern × String)) (noqa : List Pattern) :
    ∀ (k : Nat) (st : QAState), (st.stdoutErr.length : Int) ≤ st.oldLenOut →
    noqa.any (fun r => r st.stdoutErr) = false →
    ((run_cmd_qa_poll newQA newstdQA noqa (List.replicate k none) st).2 = true ↔
      (maxHitCount < st.hitCount + k ∧ 0 < k)) := by
  intro k
  induction k with
  | zero => intro st h1 h2; simp [run_cmd_qa_poll]
  | succ n ih =>
    intro st h1 h2
    obtain ⟨hb, ho, hc, hh⟩ := qa_quiet_step newQA newstdQA noqa st h1 h2
    rw [List.replicate_succ]
    unfold run_cmd_qa_poll
    by_cases hcase : maxHitCount < st.hitCount + 1
    · rw [if_pos (by rw [hh]; simp [hcase])]
      simp only [true_iff]
      exact ⟨by omega, Nat.succ_pos n⟩
    · rw [if_neg (by rw [hh]; simp [hcase])]
      rw [ih _ (by rw [hb, ho]; exact h1) (by rw [hb]; exact h2)]
      rw [hc]
      constructor
      · rintro ⟨ha, -⟩; exact ⟨by omega, Nat.succ_pos n⟩
      · rintro ⟨ha, -⟩
        refine ⟨by omega, ?_⟩
        rcases Nat.eq_zero_or_pos n with hz | hp
        · exfalso; subst hz; omega
        · exact hp

/-- C1 counterexample: the claim says the hang counter is reset to zero
on any growth of the cumulative buffer. In a run reaching hang counter 3
(one growth poll then three silent polls), a poll that reads `"ab"` —
growing the buffer past the previously recorded length, with no pattern
match — leaves the counter at 3 instead of resetting it to 0. -/
theorem hitCount_growth_no_reset_cex :
    (((run_cmd_qa_step [] [] [] (some "ab")
        (run_cmd_qa_poll [] [] [] [some "", none, none, none] initQAState).1).state.stdoutErr.length : Int)
      > (run_cmd_qa_poll [] [] [] [some "", none, none, none] initQAState).1.oldLenOut) ∧
    (run_cmd_qa_step [] [] [] (some "ab")
        (run_cmd_qa_poll [] [] [] [some "", none, none, none] initQAState).1).sent = none ∧
    (run_cmd_qa_step [] [] [] (some "ab")
        (run_cmd_qa_poll [] [] [] [some "", none, none, none] initQAState).1).state.hitCount = 3 :=
  ⟨by decide, by decide, by decide⟩

/-- C1 (amended): the hang counter is reset to zero on every matched
answer; on an iteration with no match but growth of the cumulative
buffer it is left unchanged (growth suppresses the increment but does
not reset the counter); a no-progress sentinel match also leaves it
unchanged; and it is incremented exactly on iterations with no match,
no growth and no sentinel match. -/
theorem hitCount_update_rule (newQA newstdQA : List (Pattern × String))
    (noqa : List Pattern) (tmpOut : Option String) (st : QAState) :
    ((run_cmd_qa_step newQA newstdQA noqa tmpOut st).sent.isSome = true →
       (run_cmd_qa_step newQA newstdQA noqa tmpOut st).state.hitCount = 0) ∧
    ((run_cmd_qa_step newQA newstdQA noqa tmpOut st).sent = none →
       ((run_cmd_qa_step newQA newstdQA noqa tmpOut st).state.stdoutErr.length : Int)
           > st.oldLenOut →
       (run_cmd_qa_step newQA newstdQA noqa tmpOut st).state.hitCount = st.hitCount) ∧
    ((run_cmd_qa_step newQA newstdQA noqa tmpOut st).sent = none →
       ¬ (((run_cmd_qa_step newQA newstdQA noqa tmpOut st).state.stdoutErr.length : Int)
           > st.oldLenOut) →
       noqa.any (fun r => r (run_cmd_qa_step newQA newstdQA noqa tmpOut st).state.stdoutErr)
           = true →
       (run_cmd_qa_step newQA newstdQA noqa tmpOut st).state.hitCount = st.hitCount) ∧
    ((run_cmd_qa_step newQA newstdQA noqa tmpOut st).state.hitCount = st.hitCount + 1 ↔
       ((run_cmd_qa_step newQA newstdQA noqa tmpOut st).sent = none ∧
        ¬ (((run_cmd_qa_step newQA newstdQA noqa tmpOut st).state.stdoutErr.length : Int)
           > st.oldLenOut) ∧
        noqa.any (fun r => r (run_cmd_qa_step newQA newstdQA noqa tmpOut st).state.stdoutErr)
           = false)) := by
  obtain ⟨hbuf, hsent, hcount, -, -, -⟩ := qa_step_cases newQA newstdQA noqa tmpOut st
  generalize hT : (match tmpOut with | none => false | some s => !(s = "")) = tt at hsent hcount
  generalize hB : st.stdoutErr ++ tmpOut.getD "" = buf at hbuf hsent hcount
  rw [hbuf, hsent, hcount]
  rcases h1 : findHit tt newQA buf with _ | a <;>
    rcases h2 : findHit tt newstdQA buf with _ | b <;>
    simp only [h1, h2] <;>
    by_cases hg : ((buf.length : Int)) > st.oldLenOut <;>
    by_cases hn : noqa.any (fun r => r buf) = true <;>
    simp [hg, hn]

/-- Witness for C1 (amended): a matched answer on a concrete iteration
resets the counter to zero. -/
theorem hitCount_update_rule_witness :
    (run_cmd_qa_step [((fun _ => true : Pattern), "y\n")] [] [] (some "Q")
       initQAState).state.hitCount = 0 :=
  (hitCount_update_rule [((fun _ => true : Pattern), "y\n")] [] [] (some "Q")
    initQAState).1 (by decide)

/-- C2: whenever the hang counter exceeds the fixed threshold
`maxHitCount = 20`, the process group is killed first, then the
process, and the run fails with `HangTimeout` carrying the trailing
500-character slice of the captured output; and in a run where the
output stops growing and no pattern (and no sentinel) matches, the
timeout is raised exactly when the count of consecutive unproductive
polls pushes the counter past the threshold — no later than the poll
after the threshold, and never earlier. -/
theorem hang_threshold_termination (newQA newstdQA : List (Pattern × String))
    (noqa : List Pattern) :
    (∀ tmpOut st,
       ((run_cmd_qa_step newQA newstdQA noqa tmpOut st).hangTimeout.isSome = true ↔
        (run_cmd_qa_step newQA newstdQA noqa tmpOut st).state.hitCount > maxHitCount)) ∧
    (∀ tmpOut st,
       (run_cmd_qa_step newQA newstdQA noqa tmpOut st).hangTimeout.isSome = true →
       (run_cmd_qa_step newQA newstdQA noqa tmpOut st).kills
           = [KillAction.killProcessGroup, KillAction.killProcess] ∧
       (run_cmd_qa_step newQA newstdQA noqa tmpOut st).hangTimeout
           = some (pyTail 500 (run_cmd_qa_step newQA newstdQA noqa tmpOut st).state.stdoutErr)) ∧
    (∀ (k : Nat) (st : QAState), (st.stdoutErr.length : Int) ≤ st.oldLenOut →
       noqa.any (fun r => r st.stdoutErr) = false →
       ((run_cmd_qa_poll newQA newstdQA noqa (List.replicate k none) st).2 = true ↔
         (maxHitCount < st.hitCount + k ∧ 0 < k))) := by
  refine ⟨?_, ?_, qa_quiet_poll newQA newstdQA noqa⟩ <;>
    intro tmpOut st <;>
    obtain ⟨hbuf, -, -, -, hhang, hkills⟩ := qa_step_cases newQA newstdQA noqa tmpOut st <;>
    simp only [hhang, hkills, hbuf] <;>
    by_cases hh : (run_cmd_qa_step newQA newstdQA noqa tmpOut st).state.hitCount > maxHitCount <;>
    simp [hh]

/-- Witness for C2: with no patterns at all and a buffer that never
grows, twenty-one consecutive silent polls from a zero counter raise
the timeout. -/
theorem hang_threshold_termination_witness :
    (run_cmd_qa_poll [] [] [] (List.replicate 21 none)
       { stdoutErr := "x", oldLenOut := 1, hitCount := 0 }).2 = true :=
  ((hang_threshold_termination [] [] []).2.2 21
     { stdoutErr := "x", oldLenOut := 1, hitCount := 0 }
     (by decide) rfl).mpr (by decide)

/-- C3 counterexample: the claim says the whole cumulative buffer is
tested against the patterns on every iteration while the process is
alive. After an iteration in which the prompt `Q` arrived and was
answered, the buffer still matches the custom pattern; on the next
iteration, whose read returned no new data (`tmpOut = None`), the
pattern is not consulted and no answer is sent. -/
theorem qa_skip_without_new_output_cex :
    ((fun s => s == "Q" : Pattern)
       (run_cmd_qa_step [((fun s => s == "Q" : Pattern), "y\n")] [] [] (some "Q")
          initQAState).state.stdoutErr = true) ∧
    (run_cmd_qa_step [((fun s => s == "Q" : Pattern), "y\n")] [] [] (some "Q")
       initQAState).sent = some "y\n" ∧
    (run_cmd_qa_step [((fun s => s == "Q" : Pattern), "y\n")] [] []
       none
       (run_cmd_qa_step [((fun s => s == "Q" : Pattern), "y\n")] [] [] (some "Q")
          initQAState).state).sent = none :=
  ⟨by decide, by decide, by decide⟩

/-- C3 (amended): on every iteration whose non-blocking read returned a
nonempty chunk, the entire cumulative buffer is tested against every
custom pattern first and, only if none matches, against every standard
pattern, the first match's answer being the single answer sent
(`specAnswerSelection`, written from the specification's words); on an
iteration whose read returned nothing (`None` after an `IOError`) or an
empty chunk, no pattern is consulted and no answer is sent. -/
theorem qa_answer_selection (newQA newstdQA : List (Pattern × String))
    (noqa : List Pattern) (st : QAState) (s : String) (hs : ¬ s = "") :
    (run_cmd_qa_step newQA newstdQA noqa (some s) st).sent
        = specAnswerSelection newQA newstdQA (st.stdoutErr ++ s) ∧
    (run_cmd_qa_step newQA newstdQA noqa none st).sent = none ∧
    (run_cmd_qa_step newQA newstdQA noqa (some "") st).sent = none := by
  refine ⟨?_, ?_, ?_⟩
  · obtain ⟨-, hsent, -, -, -, -⟩ := qa_step_cases newQA newstdQA noqa (some s) st
    have ht : (!(s = "") : Bool) = true := by simp [hs]
    rw [hsent]
    simp only [Option.getD_some, ht, findHit_true_filter]
    unfold specAnswerSelection
    rcases ((newQA.filter (fun qa => qa.1 (st.stdoutErr ++ s))).head?).map Prod.snd with _ | a <;>
      simp
  · obtain ⟨-, hsent, -, -, -, -⟩ := qa_step_cases newQA newstdQA noqa none st
    rw [hsent]
    simp [findHit_false]
  · obtain ⟨-, hsent, -, -, -, -⟩ := qa_step_cases newQA newstdQA noqa (some "") st
    rw [hsent]
    simp [findHit_false]

/-- Witness for C3 (amended): a concrete poll that read the prompt
`Q?` selects the first matching custom answer. -/
theorem qa_answer_selection_witness :
    (run_cmd_qa_step [((fun s => s == "Q?" : Pattern), "y\n")] [] [] (some "Q?")
       initQAState).sent
      = specAnswerSelection [((fun s => s == "Q?" : Pattern), "y\n")] [] ("" ++ "Q?") :=
  (qa_answer_selection [((fun s => s == "Q?" : Pattern), "y\n")] [] [] initQAState
    "Q?" (by decide)).1

theorem guessLevel_spec (isfile : String → Bool) (f : String) (i : Nat)
    (h : guessLevelForFile isfile f = some i) :
    isfile (pyJoin '/' ((pySplit '/' f).drop i)) = true ∧
    ∀ j, j < i → isfile (pyJoin '/' ((pySplit '/' f).drop j)) = false := by
  unfold guessLevelForFile at h
  rw [List.find?_range_eq_some] at h
  obtain ⟨h1, -, h3⟩ := h
  exact ⟨h1, fun j hj => by simpa using h3 j hj⟩

theorem guessPatchLevel_cons_some (isfile : String → Bool) (f : String)
    (rest : List String) (i : Nat) (h : guessLevelForFile isfile f = some i) :
    guessPatchLevel isfile (f :: rest) = some i := by
  unfold guessPatchLevel
  rw [h]

theorem guessPatchLevel_cons_none (isfile : String → Bool) (f : String)
    (rest : List String) (h : guessLevelForFile isfile f = none) :
    guessPatchLevel isfile (f :: rest) = guessPatchLevel isfile rest := by
  simp only [guessPatchLevel, h]

theorem patch_guess_none (sys : Sys) (runner : String → String × Int)
    (lines : List String) (cwd patchFile dest : String) (fn : Option String)
    (level : Option Nat)
    (hpf : sys.isfile (abspath cwd patchFile) = true)
    (hfn : match fn with | some f => sys.isfile (abspath cwd f) = true | none => True)
    (hdir : sys.isdir (abspath cwd dest) = true)
    (hlev : levelTruthy level = false)
    (hg : guessPatchLevel (fun rel => sys.isfile (abspath (abspath cwd dest) rel))
        (patchPlusLines lines) = none) :
    patch sys runner lines cwd patchFile dest fn false level =
      { result := .error .patchLevelUndetermined, cwd := abspath cwd dest, cmds := [] } := by
  unfold patch
  rcases fn with _ | f
  · by_cases he : patchPlusLines lines = [] <;> simp [hpf, hdir, hlev, hg, he]
  · simp only at hfn
    by_cases he : patchPlusLines lines = [] <;> simp [hpf, hfn, hdir, hlev, hg, he]

theorem patch_guess_some (sys : Sys) (runner : String → String × Int)
    (lines : List String) (cwd patchFile dest : String) (fn : Option String)
    (level : Option Nat) (p : Nat)
    (hpf : sys.isfile (abspath cwd patchFile) = true)
    (hfn : match fn with | some f => sys.isfile (abspath cwd f) = true | none => True)
    (hdir : sys.isdir (abspath cwd dest) = true)
    (hlev : levelTruthy level = false)
    (hg : guessPatchLevel (fun rel => sys.isfile (abspath (abspath cwd dest) rel))
        (patchPlusLines lines) = some p) :
    (patch sys runner lines cwd patchFile dest fn false level).cmds
        = ["patch -b -p" ++ toString p ++ " -i " ++ abspath cwd patchFile] ∧
    (patch sys runner lines cwd patchFile dest fn false level).cwd
        = abspath cwd dest := by
  have he : ¬ patchPlusLines lines = [] := by
    intro he; rw [he] at hg; exact absurd hg (by simp [guessPatchLevel])
  unfold patch
  rcases fn with _ | f
  · by_cases hr : (runner ("patch -b -p" ++ toString p ++ " -i " ++ abspath cwd patchFile)).2 = 0 <;>
      simp [hpf, hdir, hlev, hg, he, hr]
  · simp only at hfn
    by_cases hr : (runner ("patch -b -p" ++ toString p ++ " -i " ++ abspath cwd patchFile)).2 = 0 <;>
      simp [hpf, hfn, hdir, hlev, hg, he, hr]

/-- C4: with no explicit level, the level is fixed by the first `+++`
path line that resolves: a line resolving at strip depth `i` (the
remainder after dropping `i` leading segments exists relative to the
target directory, and no smaller depth resolves) makes the search stop
immediately — later lines are not consulted — and `patch` then runs
exactly `patch -b -p<i> -i <abs patch path>`; a non-resolving line is
skipped; and when no `+++` line resolves at any depth, `patch` fails
with `PatchLevelUndetermined` and runs no command at all. -/
theorem patch_level_inference :
    (∀ (isfile : String → Bool) (f : String) (rest : List String) (i : Nat),
       guessLevelForFile isfile f = some i →
       guessPatchLevel isfile (f :: rest) = some i) ∧
    (∀ (isfile : String → Bool) (f : String) (rest : List String),
       guessLevelForFile isfile f = none →
       guessPatchLevel isfile (f :: rest) = guessPatchLevel isfile rest) ∧
    (∀ (isfile : String → Bool) (f : String) (i : Nat),
       guessLevelForFile isfile f = some i →
       isfile (pyJoin '/' ((pySplit '/' f).drop i)) = true ∧
       ∀ j, j < i → isfile (pyJoin '/' ((pySplit '/' f).drop j)) = false) ∧
    (∀ (sys : Sys) (runner : String → String × Int) (lines : List String)
       (cwd patchFile dest : String) (fn : Option String) (level : Option Nat),
       sys.isfile (abspath cwd patchFile) = true →
       (match fn with | some f => sys.isfile (abspath cwd f) = true | none => True) →
       sys.isdir (abspath cwd dest) = true →
       levelTruthy level = false →
       guessPatchLevel (fun rel => sys.isfile (abspath (abspath cwd dest) rel))
           (patchPlusLines lines) = none →
       patch sys runner lines cwd patchFile dest fn false level =
         { result := .error .patchLevelUndetermined, cwd := abspath cwd dest,
           cmds := [] }) ∧
    (∀ (sys : Sys) (runner : String → String × Int) (lines : List String)
       (cwd patchFile dest : String) (fn : Option String) (level : Option Nat) (p : Nat),
       sys.isfile (abspath cwd patchFile) = true →
       (match fn with | some f => sys.isfile (abspath cwd f) = true | none => True) →
       sys.isdir (abspath cwd dest) = true →
       levelTruthy level = false →
       guessPatchLevel (fun rel => sys.isfile (abspath (abspath cwd dest) rel))
           (patchPlusLines lines) = some p →
       (patch sys runner lines cwd patchFile dest fn false level).cmds
           = ["patch -b -p" ++ toString p ++ " -i " ++ abspath cwd patchFile]) :=
  ⟨guessPatchLevel_cons_some, guessPatchLevel_cons_none, guessLevel_spec,
   fun sys runner lines cwd patchFile dest fn level hpf hfn hdir hlev hg =>
     patch_guess_none sys runner lines cwd patchFile dest fn level hpf hfn hdir hlev hg,
   fun sys runner lines cwd patchFile dest fn level p hpf hfn hdir hlev hg =>
     (patch_guess_some sys runner lines cwd patchFile dest fn level p hpf hfn hdir hlev hg).1⟩

/-- Witness for C4: a patch whose only `+++` path `nope/zzz` resolves
at no strip depth makes `patch` fail with `PatchLevelUndetermined`
without running any command, and a patch with `+++ a/b/file.txt` where
`b/file.txt` exists under `/t` runs `patch -b -p1 -i /pf`. -/
theorem patch_level_inference_witness :
    patch examplePatchSys (fun _ => ("", 0)) ["+++ nope/zzz"] "/w" "/pf" "/t"
        none false none
      = { result := .error .patchLevelUndetermined, cwd := "/t", cmds := [] } ∧
    (patch examplePatchSys (fun _ => ("", 0))
        ["--- a/b/file.txt", "+++ a/b/file.txt"] "/w" "/pf" "/t" none false none).cmds
      = ["patch -b -p" ++ toString 1 ++ " -i " ++ abspath "/w" "/pf"] :=
  ⟨patch_level_inference.2.2.2.1 examplePatchSys (fun _ => ("", 0)) ["+++ nope/zzz"]
     "/w" "/pf" "/t" none none (by decide) trivial (by decide) rfl (by decide),
   patch_level_inference.2.2.2.2 examplePatchSys (fun _ => ("", 0))
     ["--- a/b/file.txt", "+++ a/b/file.txt"] "/w" "/pf" "/t" none none 1
     (by decide) trivial (by decide) rfl (by decide)⟩

theorem fbd_many (sys : Sys) (cwd : String) (fuel : Nat)
    (h : ¬ (getLocalDirsPurged sys cwd).length = 1) :
    findBaseDir sys fuel cwd = (cwd, cwd) := by
  unfold findBaseDir
  cases fuel with
  | zero => rfl
  | succ n =>
    rcases hl : getLocalDirsPurged sys cwd with _ | ⟨e, _ | ⟨f, rest⟩⟩
    · simp [findBaseDirLoop, hl]
    · rw [hl] at h; simp at h
    · simp [findBaseDirLoop, hl]

theorem fbd_solefile (sys : Sys) (cwd : String) (fuel : Nat) (e : String)
    (hl : getLocalDirsPurged sys cwd = [e])
    (hd : sys.isdir (pathJoin cwd e) = false) :
    findBaseDir sys (fuel + 1) cwd = (pathJoin cwd e, cwd) := by
  unfold findBaseDir
  simp [findBaseDirLoop, hl, hd]

theorem fbd_chain (sys : Sys) (cwd : String) (fuel : Nat) (b c : String)
    (h1 : getLocalDirsPurged sys cwd = [b])
    (h2 : sys.isdir (pathJoin cwd b) = true)
    (h3 : getLocalDirsPurged sys (pathJoin cwd b) = [c])
    (h4 : sys.isdir (pathJoin (pathJoin cwd b) c) = true)
    (h5 : getLocalDirsPurged sys (pathJoin (pathJoin cwd b) c) = []) :
    findBaseDir sys (fuel + 3) cwd =
      (pathJoin (pathJoin cwd b) c, pathJoin (pathJoin cwd b) c) := by
  unfold findBaseDir
  have e3 : fuel + 3 = (fuel + 2) + 1 := rfl
  rw [e3]
  simp [findBaseDirLoop, h1, h2, h3, h4, h5]

/-- C5 counterexample: the claim says `findBaseDir` returns the current
directory when the sole purged entry is not a directory. In `/r`, whose
single entry `f` is a regular file, it returns the path `/r/f` of that
file, not `/r`. -/
theorem findBaseDir_sole_file_cex :
    getLocalDirsPurged exampleSoleFileSys "/r" = ["f"] ∧
    exampleSoleFileSys.isdir "/r/f" = false ∧
    findBaseDir exampleSoleFileSys 10 "/r" = ("/r/f", "/r") ∧
    ¬ ("/r/f" : String) = "/r" :=
  ⟨by decide, by decide, by decide, by decide⟩

/-- C5 (amended): `findBaseDir` descends the chain of single-entry
subdirectories (after purging the ignore list): it returns the current
directory unchanged when the purged listing has zero or at least two
entries; when the sole entry is not a directory it returns the joined
path of that entry (not the current directory); and on the nested
single-entry chain `a/b/c` started at `a` it returns the path of `c`. -/
theorem findBaseDir_descent :
    (∀ (sys : Sys) (cwd : String) (fuel : Nat),
       ¬ (getLocalDirsPurged sys cwd).length = 1 →
       findBaseDir sys fuel cwd = (cwd, cwd)) ∧
    (∀ (sys : Sys) (cwd : String) (fuel : Nat) (e : String),
       getLocalDirsPurged sys cwd = [e] →
       sys.isdir (pathJoin cwd e) = false →
       findBaseDir sys (fuel + 1) cwd = (pathJoin cwd e, cwd)) ∧
    (∀ (sys : Sys) (cwd : String) (fuel : Nat) (b c : String),
       getLocalDirsPurged sys cwd = [b] →
       sys.isdir (pathJoin cwd b) = true →
       getLocalDirsPurged sys (pathJoin cwd b) = [c] →
       sys.isdir (pathJoin (pathJoin cwd b) c) = true →
       getLocalDirsPurged sys (pathJoin (pathJoin cwd b) c) = [] →
       findBaseDir sys (fuel + 3) cwd =
         (pathJoin (pathJoin cwd b) c, pathJoin (pathJoin cwd b) c)) :=
  ⟨fbd_many, fbd_solefile, fbd_chain⟩

/-- Witness for C5 (amended): the chain clause applied to the concrete
tree `/a/b/c`. -/
theorem findBaseDir_descent_witness :
    findBaseDir exampleChainSys (0 + 3) "/a" = ("/a/b/c", "/a/b/c") :=
  findBaseDir_descent.2.2 exampleChainSys "/a" 0 "b" "c"
    (by decide) (by decide) (by decide) (by decide) (by decide)

theorem patch_cwd_all (sys : Sys) (runner : String → String × Int)
    (lines : List String) (cwd patchFile dest : String) (fn : Option String)
    (level : Option Nat)
    (hpf : sys.isfile (abspath cwd patchFile) = true)
    (hfn : match fn with | some f => sys.isfile (abspath cwd f) = true | none => True)
    (hdir : sys.isdir (abspath cwd dest) = true) :
    (patch sys runner lines cwd patchFile dest fn false level).cwd = abspath cwd dest := by
  unfold patch
  rcases fn with _ | f
  · by_cases hlev : levelTruthy level = true <;>
    by_cases he : patchPlusLines lines = [] <;>
    rcases hg : guessPatchLevel (fun rel => sys.isfile (abspath (abspath cwd dest) rel))
        (patchPlusLines lines) with _ | p <;>
    simp [hpf, hdir, hlev, he, hg, apply_ite] <;> split <;> simp
  · simp only at hfn
    by_cases hlev : levelTruthy level = true <;>
    by_cases he : patchPlusLines lines = [] <;>
    rcases hg : guessPatchLevel (fun rel => sys.isfile (abspath (abspath cwd dest) rel))
        (patchPlusLines lines) with _ | p <;>
    simp [hpf, hfn, hdir, hlev, he, hg, apply_ite] <;> split <;> simp

theorem unpack_cwd (sys : Sys) (runner : String → String × Int) (fuel : Nat)
    (cwd fn dest : String) (eo : Option String) (ow : Bool)
    (hfn : sys.isfile (abspath cwd fn) = true) :
    (∀ b, (unpack sys runner fuel cwd fn dest eo ow).result = .ok b →
       ((unpack sys runner fuel cwd fn dest eo ow).cwd =
          (findBaseDir (if sys.isdir (abspath cwd dest) then sys
                        else sys.mkdir (abspath cwd dest)) fuel (abspath cwd dest)).2 ∧
        b = (findBaseDir (if sys.isdir (abspath cwd dest) then sys
                          else sys.mkdir (abspath cwd dest)) fuel (abspath cwd dest)).1)) ∧
    (∀ c e, extractCmd fn ow = .ok c →
       (unpack sys runner fuel cwd fn dest eo ow).result = .error e →
       (unpack sys runner fuel cwd fn dest eo ow).cwd = abspath cwd dest) := by
  constructor
  · intro b hb
    unfold unpack at hb ⊢
    rcases hx : extractCmd fn ow with e0 | c0 <;> simp only [hx] at hb ⊢
    · simp [hfn] at hb
    · rcases eo with _ | opts <;> simp only at hb ⊢
      · by_cases hr : (runner c0).2 = 0 <;> simp [hfn, hr] at hb ⊢ <;> simp [hb]
      · by_cases hr : (runner (c0 ++ " " ++ opts)).2 = 0 <;>
          simp [hfn, hr] at hb ⊢ <;> simp [hb]
  · intro c e hok herr
    unfold unpack at herr ⊢
    simp only [hok] at herr ⊢
    rcases eo with _ | opts <;> simp only at herr ⊢
    · by_cases hr : (runner c).2 = 0 <;> simp [hfn, hr] at herr ⊢
    · by_cases hr : (runner (c ++ " " ++ opts)).2 = 0 <;> simp [hfn, hr] at herr ⊢

/-- C10: every `unpack` call that returns successfully leaves the
process-wide working directory at whatever directory `findBaseDir`
descended to from the destination (and a run that fails after the
extraction command leaves it at the destination); and every non-copy
`patch` call that passes its existence preconditions leaves the working
directory at the target directory, whatever its outcome — neither
operation restores the caller's previous working directory. -/
theorem cwd_side_effect :
    (∀ (sys : Sys) (runner : String → String × Int) (lines : List String)
       (cwd patchFile dest : String) (fn : Option String) (level : Option Nat),
       sys.isfile (abspath cwd patchFile) = true →
       (match fn with | some f => sys.isfile (abspath cwd f) = true | none => True) →
       sys.isdir (abspath cwd dest) = true →
       (patch sys runner lines cwd patchFile dest fn false level).cwd
         = abspath cwd dest) ∧
    (∀ (sys : Sys) (runner : String → String × Int) (fuel : Nat)
       (cwd fn dest : String) (eo : Option String) (ow : Bool),
       sys.isfile (abspath cwd fn) = true →
       (∀ b, (unpack sys runner fuel cwd fn dest eo ow).result = .ok b →
          (unpack sys runner fuel cwd fn dest eo ow).cwd =
            (findBaseDir (if sys.isdir (abspath cwd dest) then sys
                          else sys.mkdir (abspath cwd dest)) fuel
               (abspath cwd dest)).2) ∧
       (∀ c e, extractCmd fn ow = .ok c →
          (unpack sys runner fuel cwd fn dest eo ow).result = .error e →
          (unpack sys runner fuel cwd fn dest eo ow).cwd = abspath cwd dest)) :=
  ⟨patch_cwd_all,
   fun sys runner fuel cwd fn dest eo ow hfn =>
     ⟨fun b hb => ((unpack_cwd sys runner fuel cwd fn dest eo ow hfn).1 b hb).1,
      (unpack_cwd sys runner fuel cwd fn dest eo ow hfn).2⟩⟩

/-- Witness for C10: a concrete non-copy `patch` call started from
`/w` finishes with the working directory moved to the target `/t`. -/
theorem cwd_side_effect_witness :
    (patch examplePatchSys (fun _ => ("", 0)) ["+++ a/b/file.txt"] "/w" "/pf" "/t"
       none false none).cwd = abspath "/w" "/t" :=
  cwd_side_effect.1 examplePatchSys (fun _ => ("", 0)) ["+++ a/b/file.txt"]
    "/w" "/pf" "/t" none none (by decide) trivial (by decide)

end FileTools
